import Mathlib

/-!
Verification of the explosion lifecycle engine (`src/ExplosionEngine.jsx`).

The relevant parts of the program are shallowly embedded: vectors over ℚ,
milliseconds as integers, `Math.random()` draws supplied as explicit streams
`ℕ → ℚ` of values in `[0, 1]`, and each `useFrame` tick as an explicit state
transition function.  Line numbers in doc comments refer to
`src/ExplosionEngine.jsx`.
-/

namespace ExplosionEngine

/-- A 3-component vector with rational coordinates, modelling three.js
`Vector3` as used by the engine. -/
structure Vec3 where
  x : ℚ
  y : ℚ
  z : ℚ
deriving DecidableEq, Repr

/-- Componentwise addition, modelling `Vector3.add`. -/
def Vec3.add (a b : Vec3) : Vec3 := ⟨a.x + b.x, a.y + b.y, a.z + b.z⟩

/-- Scalar multiplication, modelling `Vector3.multiplyScalar`. -/
def Vec3.smul (c : ℚ) (a : Vec3) : Vec3 := ⟨c * a.x, c * a.y, c * a.z⟩

/-- `randomRange(min, max) = Math.random() * (max - min) + min` (line 110),
with `r` the `Math.random()` draw. -/
def randomRange (lo hi r : ℚ) : ℚ := r * (hi - lo) + lo

/-- `randomSpread(spread) = (Math.random() - 0.5) * 2 * spread` (line 111). -/
def randomSpread (spread r : ℚ) : ℚ := (r - 1/2) * 2 * spread

/-- `EXPLOSION_CONFIG.CLASSES` entry (lines 18-66).  `duration` and
`chainDelay` are in milliseconds; `wreckageScale` is the 3-element JS array. -/
structure ExplosionClass where
  name : String
  particleCount : ℕ
  shockwaveScale : ℚ
  duration : ℤ
  wreckagePieces : ℕ
  wreckageScale : List ℚ
  cameraShake : ℚ
  lightIntensity : ℚ
  lightDistance : ℚ
  chainExplosions : Bool := false
  chainCount : ℕ := 0
  chainDelay : ℤ := 0
deriving DecidableEq, Repr

/-- `EXPLOSION_CONFIG.CLASSES.SMALL` (lines 19-29). -/
def SMALL : ExplosionClass :=
  { name := "SMALL", particleCount := 15, shockwaveScale := 3, duration := 800,
    wreckagePieces := 1, wreckageScale := [4/10, 25/100, 6/10],
    cameraShake := 1/10, lightIntensity := 8, lightDistance := 15 }

/-- `EXPLOSION_CONFIG.CLASSES.MEDIUM` (lines 30-40). -/
def MEDIUM : ExplosionClass :=
  { name := "MEDIUM", particleCount := 30, shockwaveScale := 5, duration := 1000,
    wreckagePieces := 2, wreckageScale := [6/10, 35/100, 9/10],
    cameraShake := 25/100, lightIntensity := 15, lightDistance := 25 }

/-- `EXPLOSION_CONFIG.CLASSES.LARGE` (lines 41-51). -/
def LARGE : ExplosionClass :=
  { name := "LARGE", particleCount := 50, shockwaveScale := 8, duration := 1400,
    wreckagePieces := 4, wreckageScale := [1, 5/10, 14/10],
    cameraShake := 5/10, lightIntensity := 25, lightDistance := 40 }

/-- `EXPLOSION_CONFIG.CLASSES.BOSS` (lines 52-65). -/
def BOSS : ExplosionClass :=
  { name := "BOSS", particleCount := 100, shockwaveScale := 15, duration := 2500,
    wreckagePieces := 8, wreckageScale := [15/10, 8/10, 2],
    cameraShake := 1, lightIntensity := 50, lightDistance := 60,
    chainExplosions := true, chainCount := 5, chainDelay := 200 }

/-- `EXPLOSION_CONFIG.CLASSES[explosionClass] || EXPLOSION_CONFIG.CLASSES.MEDIUM`
(line 499): lookup by name with fallback to MEDIUM for unknown names. -/
def classFor (cls : String) : ExplosionClass :=
  if cls = "SMALL" then SMALL
  else if cls = "MEDIUM" then MEDIUM
  else if cls = "LARGE" then LARGE
  else if cls = "BOSS" then BOSS
  else MEDIUM

/-- The particle type enum: `'core' | 'fire' | 'spark' | 'smoke'`.  These are
the only type strings the engine ever creates (lines 519-521); any other
string would behave exactly like `core` in the per-tick velocity update, since
the update only branches on `'fire'`, `'spark'` and `'smoke'`. -/
inductive PType where
  | core
  | fire
  | spark
  | smoke
deriving DecidableEq, Repr

/-- Type assignment in the particle-creation loop (lines 519-521):
`i < n*0.2 ? 'core' : i < n*0.6 ? 'fire' : i < n*0.8 ? 'spark' : 'smoke'`.
The IEEE double products `n*0.2`, `n*0.6`, `n*0.8` round to exactly `n/5`,
`3n/5`, `4n/5` for every `particleCount` in the class table
(n = 15, 30, 50, 100), so the comparisons are stated exactly over ℚ. -/
def particleTypeFor (n i : ℕ) : PType :=
  if (i : ℚ) < n * (2/10) then .core
  else if (i : ℚ) < n * (6/10) then .fire
  else if (i : ℚ) < n * (8/10) then .spark
  else .smoke

/-- The list of types of the particle batch created at Explosion
initialization (lines 518-552), in loop order `i = 0, …, particleCount-1`. -/
def particleBatchTypes (n : ℕ) : List PType :=
  (List.range n).map (particleTypeFor n)

/-- Kinematic state of one particle: the mesh position and the mutable
velocity ref of `ExplosionParticle` (lines 140-142). -/
structure ParticleState where
  position : Vec3
  velocity : Vec3
deriving DecidableEq, Repr

/-- The type-dependent velocity adjustment of `ExplosionParticle.useFrame`
(lines 158-168), applied after the position update: fire scales by 0.96 then
adds `2*delta` to y; spark scales by 0.98 then subtracts `15*delta` from y;
smoke scales by 0.92 then adds `1*delta` to y; any other type (core) leaves
the velocity untouched. -/
def particleVelocityUpdate (ty : PType) (v : Vec3) (delta : ℚ) : Vec3 :=
  match ty with
  | .fire =>
      let v' := Vec3.smul (96/100) v
      { v' with y := v'.y + delta * 2 }
  | .spark =>
      let v' := Vec3.smul (98/100) v
      { v' with y := v'.y - delta * 15 }
  | .smoke =>
      let v' := Vec3.smul (92/100) v
      { v' with y := v'.y + delta * 1 }
  | .core => v

/-- One `useFrame` tick of `ExplosionParticle` with `progress < 1`
(lines 155-168): `position.add(velocity.clone().multiplyScalar(delta))` first,
then the type-dependent velocity adjustment. -/
def particleTick (ty : PType) (s : ParticleState) (delta : ℚ) : ParticleState :=
  { position := s.position.add (Vec3.smul delta s.velocity)
    velocity := particleVelocityUpdate ty s.velocity delta }

/-- Iterated particle ticks over a list of frame deltas. -/
def particleRun (ty : PType) (s : ParticleState) : List ℚ → ParticleState
  | [] => s
  | d :: ds => particleRun ty (particleTick ty s d) ds

/-- The visual scale set by a particle tick (lines 170-172):
`Math.max(0.01, size * (1 - progress * 0.7))`. -/
def particleScale (size progress : ℚ) : ℚ := max (1/100) (size * (1 - progress * (7/10)))

/-- The material opacity set by a particle tick (line 175):
`Math.max(0, 1 - progress)`. -/
def particleOpacity (progress : ℚ) : ℚ := max 0 (1 - progress)

/-- The completion test at the top of `ExplosionParticle.useFrame`
(lines 147-153): `progress = elapsed / lifetime; if (progress >= 1) do
onComplete and return`.  JS division is IEEE: for `lifetime = 0` the quotient
is `+Infinity` when `elapsed > 0` (so `>= 1` holds) and `NaN` when
`elapsed = 0` (so `>= 1` is false); the zero branch below mirrors exactly
this, and for `lifetime ≠ 0` rational division agrees with the double
quotient's relation to 1 (same signs and ordering).  `elapsed` is the
nonnegative time since creation in seconds. -/
def particleCompletes (elapsed lifetime : ℚ) : Bool :=
  if lifetime = 0 then decide (0 < elapsed) else decide (1 ≤ elapsed / lifetime)

/-- One `useFrame` tick of the wreckage `SmokeParticle` with `progress < 1`
(lines 334-337): position += velocity*delta, then velocity is scaled by 0.95
and `0.8*delta` is added to its y component. -/
def smokeTrailTick (s : ParticleState) (delta : ℚ) : ParticleState :=
  let v' := Vec3.smul (95/100) s.velocity
  { position := s.position.add (Vec3.smul delta s.velocity)
    velocity := { v' with y := v'.y + delta * (8/10) } }

/-- One particle record of the batch created at Explosion initialization
(lines 533-550).  Only the fields the claims mention are carried. -/
structure ParticleRecord where
  id : ℕ
  ty : PType
deriving DecidableEq, Repr

/-- One shockwave record (lines 555-563). -/
structure ShockwaveRecord where
  id : ℕ
  delay : ℤ
  scale : ℚ
deriving DecidableEq, Repr

/-- One wreckage record created at Explosion initialization (lines 566-577). -/
structure WreckageInitRecord where
  id : ℕ
  scale : List ℚ
deriving DecidableEq, Repr

/-- The wreckage batch of `Explosion`'s initialization effect (lines 566-577):
if `showWreckage`, one record per `config.wreckagePieces`, with
`scale: config.wreckageScale.map(s => s * randomRange(1 - 0.3, 1 + 0.3))` —
the arrow function passed to `Array.map` calls `Math.random()` afresh for
every component, so piece `i` consumes the three draws `rng (3*i)`,
`rng (3*i+1)`, `rng (3*i+2)` in component order.  `rng` is the stream of
`Math.random()` draws consumed by this loop, in order (the draws are i.i.d.,
so the stream is modelled per creation phase). -/
def mkWreckageBatch (cfg : ExplosionClass) (showWreckage : Bool) (rng : ℕ → ℚ) :
    List WreckageInitRecord :=
  if showWreckage then
    (List.range cfg.wreckagePieces).map fun i =>
      { id := i
        scale := cfg.wreckageScale.mapIdx fun j s =>
          s * randomRange (1 - 3/10) (1 + 3/10) (rng (3 * i + j)) }
  else []

/-- The child-collection and completion state of one `Explosion` component
(lines 501-510).  `isComplete` is the `useState` flag of line 507. -/
structure ExplosionState where
  particles : List ParticleRecord
  shockwaves : List ShockwaveRecord
  wreckage : List WreckageInitRecord
  flash : Bool
  isComplete : Bool
deriving DecidableEq, Repr

/-- The per-frame completion check of `Explosion` (lines 599-605): with
`elapsed = Date.now() - startTime` in ms, when
`elapsed > config.duration + 3000 && !isComplete` the instance sets
`isComplete` and fires `onComplete`.  Returns the new state and whether
`onComplete` fired on this tick. -/
def completionTick (cfg : ExplosionClass) (elapsed : ℤ) (s : ExplosionState) :
    ExplosionState × Bool :=
  if cfg.duration + 3000 < elapsed ∧ s.isComplete = false then
    ({ s with isComplete := true }, true)
  else (s, false)

/-- Iterated completion checks over a list of per-tick elapsed times,
counting how many times `onComplete` fired. -/
def runCompletion (cfg : ExplosionClass) (s : ExplosionState) : List ℤ → ExplosionState × ℕ
  | [] => (s, 0)
  | e :: es =>
      let p := completionTick cfg e s
      let q := runCompletion cfg p.1 es
      (q.1, (if p.2 then 1 else 0) + q.2)

/-- One smoke-trail record owned by a `FallingWreckage` (lines 422-427). -/
structure SmokeRecord where
  id : ℚ
  position : Vec3
  velocity : Vec3
  size : ℚ
deriving DecidableEq, Repr

/-- The state of one `FallingWreckage` component: the `<group>` position and
rotation (both local to the owning `Explosion`'s `<group position={position}>`
wrapper, since the wreckage is rendered inside it with
`startPosition = (0,0,0)`, lines 626 and 666-668), the `physics` ref of
lines 377-389, the smoke-particle collection, the `hasLanded` flag, and the
observable callback effects (`onGroundHit` call count and last argument). -/
structure WreckageState where
  position : Vec3
  velocity : Vec3
  rotation : Vec3
  rotationSpeed : Vec3
  lastSmokeTime : ℚ
  smokeParticles : List SmokeRecord
  hasLanded : Bool
  groundHits : ℕ
  lastHitPosition : Option Vec3
deriving DecidableEq, Repr

/-- The initial state of a `FallingWreckage` (lines 373-389): local position
`(0,0,0)` (the `startPosition` passed at line 668), `lastSmokeTime = 0`, not
landed, no smoke, no callback fired yet.  `v₀` and `rs` abbreviate the
randomized `physics` initialization: `v₀` is
`createRandomDirection(forwardVector, π/6)` (a unit vector in the spread cone
around `forwardVector`; with both angle draws equal to 0.5 it is exactly the
normalized forward vector) scaled by `randomRange(3, 8)`, and `rs` has each
component drawn from `randomRange(2, 8)`. -/
def WreckageState.init (v₀ rs : Vec3) : WreckageState :=
  { position := ⟨0, 0, 0⟩, velocity := v₀, rotation := ⟨0, 0, 0⟩,
    rotationSpeed := rs, lastSmokeTime := 0, smokeParticles := [],
    hasLanded := false, groundHits := 0, lastHitPosition := none }

/-- One `useFrame` tick of `FallingWreckage` (lines 395-435).  If already
landed the body neither integrates nor emits (the early return of line 396).
Otherwise, in source order: gravity is applied to the velocity first
(`velocity.y -= 15 * delta`, line 401), then the position is advanced with the
updated velocity (line 404), the rotation advances by `rotationSpeed * delta`
(lines 407-409), a smoke record is emitted when
`now - lastSmokeTime > SMOKE_EMIT_RATE * 1000` (= 30 ms exactly in IEEE
doubles; lines 412-428, consuming the five draws `rng k … rng (k+4)` in
evaluation order: smoke velocity x, y, z, then the `id` draw, then the size
draw), and finally the ground test `position.y <= groundY` (lines 431-434)
sets `hasLanded` and fires `onGroundHit` with a clone of the current (local)
position.  `delta` is in seconds, `now` is `Date.now()` in ms.  Returns the
new state and the next unconsumed index into `rng`. -/
def wreckageTick (groundY : ℚ) (s : WreckageState) (delta now : ℚ)
    (rng : ℕ → ℚ) (k : ℕ) : WreckageState × ℕ :=
  if s.hasLanded then (s, k)
  else
    let vel : Vec3 := { s.velocity with y := s.velocity.y - 15 * delta }
    let pos := s.position.add (Vec3.smul delta vel)
    let rot : Vec3 := ⟨s.rotation.x + s.rotationSpeed.x * delta,
                       s.rotation.y + s.rotationSpeed.y * delta,
                       s.rotation.z + s.rotationSpeed.z * delta⟩
    let emit := decide (30 < now - s.lastSmokeTime)
    let lastSmokeTime := if emit then now else s.lastSmokeTime
    let smoke := if emit then
        s.smokeParticles ++
          [{ id := now + rng (k + 3)
             position := pos
             velocity := ⟨randomSpread 1 (rng k), randomRange (1/2) (3/2) (rng (k + 1)),
                          randomSpread 1 (rng (k + 2))⟩
             size := randomRange (3/10) (6/10) (rng (k + 4)) }]
      else s.smokeParticles
    let k' := if emit then k + 5 else k
    if pos.y ≤ groundY then
      ({ s with position := pos, velocity := vel, rotation := rot,
                lastSmokeTime := lastSmokeTime, smokeParticles := smoke,
                hasLanded := true, groundHits := s.groundHits + 1,
                lastHitPosition := some pos }, k')
    else
      ({ s with position := pos, velocity := vel, rotation := rot,
                lastSmokeTime := lastSmokeTime, smokeParticles := smoke }, k')

/-- Iterated wreckage ticks over a list of `(delta, now)` frames, threading
the random-stream index. -/
def wreckageRun (groundY : ℚ) (rng : ℕ → ℚ) (s : WreckageState) (k : ℕ) :
    List (ℚ × ℚ) → WreckageState × ℕ
  | [] => (s, k)
  | f :: fs =>
      let p := wreckageTick groundY s f.1 f.2 rng k
      wreckageRun groundY rng p.1 p.2 fs

/-- One entry of the Manager's active set (lines 741-748). -/
structure ExplosionEntry where
  id : ℕ
  position : Vec3
  forwardVector : Vec3
  explosionClass : String
  showWreckage : Bool
  groundY : ℚ
deriving DecidableEq, Repr

/-- The state of `useExplosionManager` (lines 728-730): the active-explosion
list and the `explosionIdRef` counter. -/
structure ManagerState where
  explosions : List ExplosionEntry
  nextId : ℕ
deriving DecidableEq, Repr

/-- The argument of `triggerExplosion` (lines 732-738) after the
`position instanceof Vector3` normalization (both branches yield the same
3-vector value, so the normalized form is modelled directly). -/
structure TriggerConfig where
  position : Vec3
  forwardVector : Vec3 := ⟨0, 0, -1⟩
  explosionClass : String := "MEDIUM"
  showWreckage : Bool := true
  groundY : ℚ := -5
deriving DecidableEq, Repr

/-- `triggerExplosion` (lines 732-751): takes `id = explosionIdRef.current++`,
appends the new entry to the active list, and returns the id. -/
def triggerExplosion (cfg : TriggerConfig) (m : ManagerState) : ℕ × ManagerState :=
  (m.nextId,
   { explosions := m.explosions ++
       [{ id := m.nextId, position := cfg.position, forwardVector := cfg.forwardVector,
          explosionClass := cfg.explosionClass, showWreckage := cfg.showWreckage,
          groundY := cfg.groundY }]
     nextId := m.nextId + 1 })

/-- `removeExplosion` (lines 753-755): filters the entry with this id out of
the active list; the id counter is untouched. -/
def removeExplosion (i : ℕ) (m : ManagerState) : ManagerState :=
  { m with explosions := m.explosions.filter fun e => e.id ≠ i }

/-- `clearAllExplosions` (lines 757-759): empties the active list; the id
counter is untouched. -/
def clearAllExplosions (m : ManagerState) : ManagerState :=
  { m with explosions := [] }

/-- One Manager operation. -/
inductive ManagerOp where
  | trigger (cfg : TriggerConfig)
  | remove (i : ℕ)
  | clearAll
deriving Repr

/-- Whether an operation is a trigger. -/
def ManagerOp.isTrigger : ManagerOp → Bool
  | .trigger _ => true
  | _ => false

/-- Runs a sequence of Manager operations, collecting the ids returned by the
trigger calls in call order. -/
def runOps (m : ManagerState) : List ManagerOp → ManagerState × List ℕ
  | [] => (m, [])
  | op :: ops =>
      match op with
      | .trigger cfg =>
          let p := triggerExplosion cfg m
          let q := runOps p.2 ops
          (q.1, p.1 :: q.2)
      | .remove i => runOps (removeExplosion i m) ops
      | .clearAll => runOps (clearAllExplosions m) ops

/-- The state of the `CameraShake` component (lines 793-803): the external
camera position, plus the `startTime` and `originalPosition` refs (`none`
when inactive; both are set together on activation, line 798-802). -/
structure CameraShakeState where
  cameraPos : Vec3
  base : Option Vec3
  startTime : Option ℚ
deriving DecidableEq, Repr

/-- One `useFrame` tick of `CameraShake` (lines 805-820).  `now` is
`Date.now()` in ms, `r1 r2` the two `Math.random()` draws of this tick.
While active with `progress = (now - startTime)/duration < 1`, the camera's
x and y are set to the captured base plus `randomSpread(intensity*(1-progress))`
and z is never written; at the first tick with `progress ≥ 1` the camera
position is copied back to the captured base and `startTime` is cleared. -/
def cameraShakeTick (intensity duration : ℚ) (s : CameraShakeState)
    (now : ℚ) (r1 r2 : ℚ) : CameraShakeState :=
  match s.startTime, s.base with
  | some t0, some base =>
      let progress := (now - t0) / duration
      if 1 ≤ progress then
        { s with cameraPos := base, startTime := none }
      else
        let shake := intensity * (1 - progress)
        { s with cameraPos := ⟨base.x + randomSpread shake r1,
                               base.y + randomSpread shake r2,
                               s.cameraPos.z⟩ }
  | _, _ => s

/-- The integrator order the spec asserts for the wreckage body, written from
the spec's words for comparison with `wreckageTick`: "position += velocity *
delta first, then adjusts velocity … wreckage: no decay and y -= 15*delta".
That is, the position advances with the pre-tick velocity and gravity is added
to the velocity afterwards. -/
def specOrderWreckageStep (s : ParticleState) (delta : ℚ) : ParticleState :=
  { position := s.position.add (Vec3.smul delta s.velocity)
    velocity := { s.velocity with y := s.velocity.y - 15 * delta } }

/-- Integer form of the batch-apportionment thresholds (`10*i < 2*n` instead
of `i < n*0.2`, and so on); proved equal to `particleTypeFor` in
`particleTypeFor_eq` and used only to compute with it. -/
def natTypeFor (n i : ℕ) : PType :=
  if 10 * i < 2 * n then .core
  else if 10 * i < 6 * n then .fire
  else if 10 * i < 8 * n then .spark
  else .smoke

/-!  ## Helper lemmas  -/

/-- The rational threshold comparisons of `particleTypeFor` are equivalent to
the integer comparisons of `natTypeFor`. -/
theorem particleTypeFor_eq (n i : ℕ) : particleTypeFor n i = natTypeFor n i := by
  have key : ∀ c : ℕ, (((i : ℚ) < n * (c / 10)) ↔ 10 * i < c * n) := by
    intro c
    constructor
    · intro h
      have h' : (10 * i : ℚ) < (c * n : ℚ) := by linarith
      exact_mod_cast h'
    · intro h
      have h' : ((10 * i : ℕ) : ℚ) < ((c * n : ℕ) : ℚ) := by exact_mod_cast h
      push_cast at h'
      linarith
  have h2 := key 2
  have h6 := key 6
  have h8 := key 8
  push_cast at h2 h6 h8
  unfold particleTypeFor natTypeFor
  simp only [h2, h6, h8]

/-- The particle batch computed through the integer thresholds. -/
theorem particleBatchTypes_eq (n : ℕ) :
    particleBatchTypes n = (List.range n).map (natTypeFor n) := by
  unfold particleBatchTypes
  exact List.map_congr_left fun i _ => particleTypeFor_eq n i

/-- `randomRange lo hi` maps a draw in `[0, 1]` into `[lo, hi]`. -/
theorem randomRange_mem (lo hi r : ℚ) (h : lo ≤ hi) (h0 : 0 ≤ r) (h1 : r ≤ 1) :
    lo ≤ randomRange lo hi r ∧ randomRange lo hi r ≤ hi := by
  unfold randomRange
  constructor <;> nlinarith

/-- `randomSpread s` maps a draw in `[0, 1]` into `[-s, s]`. -/
theorem abs_randomSpread_le (s r : ℚ) (hs : 0 ≤ s) (h0 : 0 ≤ r) (h1 : r ≤ 1) :
    |randomSpread s r| ≤ s := by
  unfold randomSpread
  rw [abs_le]
  constructor <;> nlinarith

/-- Pointwise relation between a list and its `mapIdx` image. -/
theorem forall₂_mapIdx {α β : Type} (R : α → β → Prop) :
    ∀ (l : List α) (f : ℕ → α → β), (∀ j a, R a (f j a)) →
      List.Forall₂ R l (l.mapIdx f) := by
  intro l
  induction l with
  | nil => intro f _; simp
  | cons a l ih =>
      intro f hf
      rw [List.mapIdx_cons]
      exact List.Forall₂.cons (hf 0 a) (ih _ fun j b => hf (j + 1) b)

/-- Shifting the accumulated displacement through one more step. -/
theorem Vec3.add_smul_add (a : Vec3) (c d : ℚ) (v : Vec3) :
    (a.add (Vec3.smul c v)).add (Vec3.smul d v) = a.add (Vec3.smul (c + d) v) := by
  cases a; cases v
  simp only [Vec3.add, Vec3.smul, Vec3.mk.injEq]
  refine ⟨by ring, by ring, by ring⟩

/-- Adding a zero displacement. -/
theorem Vec3.add_smul_zero (a v : Vec3) : a.add (Vec3.smul 0 v) = a := by
  cases a; cases v
  simp [Vec3.add, Vec3.smul]

/-!  ## Claim theorems  -/

/-- C6: for every Explosion Instance the particle batch has exactly
`class.particleCount` particles, apportioned by index — first 20% `core`, next
40% `fire`, next 20% `spark`, remaining 20% `smoke` — which for each of the
four classes (SMALL 15, MEDIUM 30, LARGE 50, BOSS 100) gives type counts
(3, 6, 3, 3), (6, 12, 6, 6), (10, 20, 10, 10) and (20, 40, 20, 20). -/
theorem C6_particle_batch_apportionment :
    (∀ n : ℕ, (particleBatchTypes n).length = n) ∧
    SMALL.particleCount = 15 ∧ MEDIUM.particleCount = 30 ∧
    LARGE.particleCount = 50 ∧ BOSS.particleCount = 100 ∧
    ((particleBatchTypes 15).count .core = 3 ∧ (particleBatchTypes 15).count .fire = 6 ∧
     (particleBatchTypes 15).count .spark = 3 ∧ (particleBatchTypes 15).count .smoke = 3) ∧
    ((particleBatchTypes 30).count .core = 6 ∧ (particleBatchTypes 30).count .fire = 12 ∧
     (particleBatchTypes 30).count .spark = 6 ∧ (particleBatchTypes 30).count .smoke = 6) ∧
    ((particleBatchTypes 50).count .core = 10 ∧ (particleBatchTypes 50).count .fire = 20 ∧
     (particleBatchTypes 50).count .spark = 10 ∧ (particleBatchTypes 50).count .smoke = 10) ∧
    ((particleBatchTypes 100).count .core = 20 ∧ (particleBatchTypes 100).count .fire = 40 ∧
     (particleBatchTypes 100).count .spark = 20 ∧ (particleBatchTypes 100).count .smoke = 20) := by
  refine ⟨fun n => by simp [particleBatchTypes], rfl, rfl, rfl, rfl, ?_, ?_, ?_, ?_⟩ <;>
    simp only [particleBatchTypes_eq] <;>
    exact ⟨by decide, by decide, by decide, by decide⟩

/-- C1 (counterexample): the completion threshold is strict.  At a tick with
elapsed exactly `duration + 3000` ms (SMALL: 3800 ms) the instance does *not*
transition to Completed and `onComplete` does not fire, contradicting the
claim that completion occurs when elapsed *reaches* `duration + 3000`; one
millisecond later it does. -/
theorem C1_counterexample :
    (completionTick SMALL 3800 ⟨[], [], [], true, false⟩).1.isComplete = false ∧
    (completionTick SMALL 3800 ⟨[], [], [], true, false⟩).2 = false ∧
    (completionTick SMALL 3801 ⟨[], [], [], true, false⟩).1.isComplete = true := by
  refine ⟨?_, ?_, ?_⟩ <;> decide

/-- C1 (amended): an Explosion Instance transitions to Completed exactly when
its elapsed time strictly exceeds `duration + 3000` ms, independent of the
state of its child records (the completion check reads only the clock and the
`isComplete` flag, so any two states agreeing on `isComplete` complete
identically, whatever their particles, shockwaves or wreckage); for a SMALL
instance (duration 800 ms) this threshold is 3800 ms, so it completes at the
first tick with elapsed > 3800 ms. -/
theorem C1_completion_strictly_after (cfg : ExplosionClass) (e : ℤ)
    (s t : ExplosionState) (h : s.isComplete = t.isComplete) :
    ((completionTick cfg e s).1.isComplete
        = (s.isComplete || decide (cfg.duration + 3000 < e))) ∧
    ((completionTick cfg e s).2 = (!s.isComplete && decide (cfg.duration + 3000 < e))) ∧
    ((completionTick cfg e s).1.isComplete = (completionTick cfg e t).1.isComplete) ∧
    ((completionTick SMALL e s).1.isComplete
        = (s.isComplete || decide ((3800 : ℤ) < e))) := by
  have key : ∀ (c : ExplosionClass) (u : ExplosionState),
      (completionTick c e u).1.isComplete = (u.isComplete || decide (c.duration + 3000 < e)) := by
    intro c u
    unfold completionTick
    by_cases hc : c.duration + 3000 < e
    · by_cases hu : u.isComplete = false
      · rw [if_pos ⟨hc, hu⟩]
        simp [hu, hc]
      · rw [if_neg fun hh => hu hh.2]
        simp only [Bool.not_eq_false] at hu
        simp [hu]
    · rw [if_neg fun hh => hc hh.1]
      simp [hc]
  refine ⟨key cfg s, ?_, ?_, ?_⟩
  · unfold completionTick
    by_cases hc : cfg.duration + 3000 < e
    · by_cases hu : s.isComplete = false
      · rw [if_pos ⟨hc, hu⟩]
        simp [hu, hc]
      · rw [if_neg fun hh => hu hh.2]
        simp only [Bool.not_eq_false] at hu
        simp [hu]
    · rw [if_neg fun hh => hc hh.1]
      simp [hc]
  · rw [key cfg s, key cfg t, h]
  · have h' := key SMALL s
    rw [h']
    norm_num [SMALL]

/-- Witness for `C1_completion_strictly_after`: two concrete states with the
same `isComplete` flag but different child collections, evaluated at a SMALL
instance 3801 ms after creation. -/
theorem C1_completion_strictly_after_witness :
    ((completionTick SMALL 3801 ⟨[], [], [], true, false⟩).1.isComplete
        = (false || decide ((800 : ℤ) + 3000 < 3801))) ∧
    ((completionTick SMALL 3801 ⟨[], [], [], true, false⟩).1.isComplete
        = (completionTick SMALL 3801 ⟨[⟨0, .core⟩], [], [], false, false⟩).1.isComplete) := by
  have h := C1_completion_strictly_after SMALL 3801
    ⟨[], [], [], true, false⟩ ⟨[⟨0, .core⟩], [], [], false, false⟩ rfl
  exact ⟨h.1, h.2.2.1⟩

/-- C5: over any tick sequence the `completed` flag never reverts (it is
monotone along every tick), and `onComplete` fires at most once — zero times
when the instance is already complete — even when the completion condition
holds on many consecutive ticks. -/
theorem C5_completion_fires_at_most_once (cfg : ExplosionClass) (es : List ℤ)
    (s : ExplosionState) :
    (s.isComplete ≤ (runCompletion cfg s es).1.isComplete) ∧
    ((runCompletion cfg s es).2 + (if s.isComplete then 1 else 0) ≤ 1) := by
  induction es generalizing s with
  | nil =>
      refine ⟨le_refl _, ?_⟩
      by_cases h : s.isComplete <;> simp [runCompletion, h]
  | cons e es ih =>
      unfold runCompletion
      unfold completionTick
      by_cases hc : cfg.duration + 3000 < e ∧ s.isComplete = false
      · rw [if_pos hc]
        obtain ⟨h1, h2⟩ := ih { s with isComplete := true }
        refine ⟨by simp [hc.2], ?_⟩
        simp only [if_pos rfl] at h2 ⊢
        simp only [hc.2, if_neg Bool.false_ne_true]
        omega
      · rw [if_neg hc]
        obtain ⟨h1, h2⟩ := ih s
        exact ⟨h1, by simpa using h2⟩

/-- C7 (counterexample): a particle with lifetime −1 does not complete on its
first tick (here 16 ms after creation) and is still not complete 10⁹ seconds
later — it animates indefinitely, which is exactly what the claim says must
not happen. -/
theorem C7_counterexample :
    particleCompletes (16/1000) (-1) = false ∧
    particleCompletes (10 ^ 9) (-1) = false := by
  constructor <;>
  · unfold particleCompletes
    rw [if_neg (by norm_num : ¬((-1 : ℚ) = 0))]
    simp only [decide_eq_false_iff_not, not_le]
    norm_num

/-- C7 (amended): the code does not guard lifetime ≤ 0 by immediate
completion.  A particle with negative lifetime never passes the
`progress >= 1` completion test at any nonnegative elapsed time (its progress
stays ≤ 0), so it keeps animating indefinitely; a particle with lifetime = 0
completes at the first tick with positive elapsed time (the IEEE quotient is
+∞) but not at a tick with elapsed = 0 (the quotient is NaN). -/
theorem C7_nonpositive_lifetime_behaviour (e lt : ℚ) (he : 0 ≤ e) (hlt : lt < 0) :
    particleCompletes e lt = false ∧ particleCompletes e 0 = decide (0 < e) := by
  constructor
  · unfold particleCompletes
    rw [if_neg (ne_of_lt hlt)]
    simp only [decide_eq_false_iff_not, not_le]
    have hq : e / lt ≤ 0 := div_nonpos_of_nonneg_of_nonpos he (le_of_lt hlt)
    linarith
  · unfold particleCompletes
    rw [if_pos rfl]

/-- Witness for `C7_nonpositive_lifetime_behaviour` at elapsed 5 s and
lifetime −2 s. -/
theorem C7_nonpositive_lifetime_behaviour_witness :
    particleCompletes 5 (-2) = false ∧ particleCompletes 5 0 = decide ((0 : ℚ) < 5) :=
  C7_nonpositive_lifetime_behaviour 5 (-2) (by norm_num) (by norm_num)

/-- C10: a tick of a `core` particle (the only created type outside the
fire/spark/smoke branches) leaves the velocity vector completely unchanged —
no decay factor, no vertical bias — so over any sequence of frame deltas a
core particle keeps its initial velocity and moves in a straight line at
constant speed: its position is the start position plus the total elapsed
delta times the initial velocity. -/
theorem C10_core_particle_straight_line (s : ParticleState) (ds : List ℚ) :
    (∀ v : Vec3, ∀ d : ℚ, particleVelocityUpdate .core v d = v) ∧
    (particleRun .core s ds).velocity = s.velocity ∧
    (particleRun .core s ds).position = s.position.add (Vec3.smul ds.sum s.velocity) := by
  refine ⟨fun v d => rfl, ?_⟩
  induction ds generalizing s with
  | nil => exact ⟨rfl, by rw [List.sum_nil, Vec3.add_smul_zero]; rfl⟩
  | cons d ds ih =>
      obtain ⟨h1, h2⟩ := ih (particleTick .core s d)
      have hv : (particleTick .core s d).velocity = s.velocity := rfl
      have hp : (particleTick .core s d).position = s.position.add (Vec3.smul d s.velocity) := rfl
      have hrun : particleRun .core s (d :: ds) = particleRun .core (particleTick .core s d) ds := rfl
      refine ⟨by rw [hrun, h1, hv], ?_⟩
      rw [List.sum_cons, hrun, h2, hv, hp, Vec3.add_smul_add]

/-- C3 (counterexample): the per-piece-single-factor claim fails.  With the
`Math.random()` stream 0, 1, 0, … a SMALL wreckage batch has the single piece
scale (0.4·0.7, 0.25·1.3, 0.6·0.7) = (7/25, 13/40, 21/50): the x and z axes
were scaled by 0.7 but the y axis by 1.3, so no single factor `f` gives
`scale = wreckageScale * f` — the `Array.map` callback draws an independent
factor per axis. -/
theorem C3_counterexample :
    mkWreckageBatch SMALL true (fun j => if j % 2 = 0 then 0 else 1) =
      [{ id := 0, scale := [7/25, 13/40, 21/50] }] ∧
    ¬ ∃ f : ℚ, List.map (fun s => s * f) SMALL.wreckageScale = [7/25, 13/40, 21/50] := by
  constructor
  · unfold mkWreckageBatch
    norm_num [SMALL, List.range_succ, randomRange]
  · rintro ⟨f, hf⟩
    simp only [SMALL, List.map_cons, List.map_nil, List.cons.injEq, and_true] at hf
    obtain ⟨e1, e2, -⟩ := hf
    have : f = 7/10 := by linarith
    rw [this] at e2
    norm_num at e2

/-- C3 (amended): with `showWreckage = true` exactly `class.wreckagePieces`
wreckage records are created (none with `showWreckage = false`), and each
record's 3-component scale equals `class.wreckageScale` multiplied
componentwise by an *independently drawn* `randomRange(0.7, 1.3)` factor per
axis — three draws per piece, one per component, each factor lying in
[0.7, 1.3] whenever the random draws lie in [0, 1] — not a single factor
shared by the three axes. -/
theorem C3_wreckage_scale_per_axis (cfg : ExplosionClass) (rng : ℕ → ℚ)
    (hr : ∀ j, 0 ≤ rng j ∧ rng j ≤ 1) :
    (mkWreckageBatch cfg true rng).length = cfg.wreckagePieces ∧
    mkWreckageBatch cfg false rng = [] ∧
    ∀ w ∈ mkWreckageBatch cfg true rng,
      List.Forall₂ (fun b c => ∃ f : ℚ, 7/10 ≤ f ∧ f ≤ 13/10 ∧ c = b * f)
        cfg.wreckageScale w.scale := by
  refine ⟨by simp [mkWreckageBatch], by simp [mkWreckageBatch], ?_⟩
  intro w hw
  simp only [mkWreckageBatch, if_true, List.mem_map, List.mem_range] at hw
  obtain ⟨i, hi, rfl⟩ := hw
  apply forall₂_mapIdx
  intro j a
  have hb := randomRange_mem (1 - 3/10) (1 + 3/10) (rng (3 * i + j)) (by norm_num)
    (hr (3 * i + j)).1 (hr (3 * i + j)).2
  exact ⟨randomRange (1 - 3/10) (1 + 3/10) (rng (3 * i + j)),
    by linarith [hb.1], by linarith [hb.2], rfl⟩

/-- Witness for `C3_wreckage_scale_per_axis`: the constant draw stream 1/2 on
a SMALL instance. -/
theorem C3_wreckage_scale_per_axis_witness :
    (mkWreckageBatch SMALL true fun _ => 1/2).length = SMALL.wreckagePieces ∧
    mkWreckageBatch SMALL false (fun _ => 1/2) = [] ∧
    ∀ w ∈ mkWreckageBatch SMALL true fun _ => 1/2,
      List.Forall₂ (fun b c => ∃ f : ℚ, 7/10 ≤ f ∧ f ≤ 13/10 ∧ c = b * f)
        SMALL.wreckageScale w.scale :=
  C3_wreckage_scale_per_axis SMALL (fun _ => 1/2) (fun _ => by norm_num)

/-- C4 (counterexample): for the wreckage body the order is reversed.  From
velocity (0, 0, −5) at the origin with delta = 1 s, the code's tick
(gravity applied to the velocity *before* the position update) moves the body
to (0, −15, −5), while the claimed order (position first, then velocity
bias) would move it to (0, 0, −5); the two positions differ. -/
theorem C4_counterexample :
    (wreckageTick (-100) (WreckageState.init ⟨0, 0, -5⟩ ⟨2, 2, 2⟩) 1 1000
        (fun _ => 1/2) 0).1.position = ⟨0, -15, -5⟩ ∧
    (specOrderWreckageStep ⟨⟨0, 0, 0⟩, ⟨0, 0, -5⟩⟩ 1).position = ⟨0, 0, -5⟩ ∧
    ((⟨0, -15, -5⟩ : Vec3) ≠ ⟨0, 0, -5⟩) := by
  refine ⟨?_, ?_, ?_⟩
  · norm_num [wreckageTick, WreckageState.init, Vec3.add, Vec3.smul]
  · norm_num [specOrderWreckageStep, Vec3.add, Vec3.smul]
  · intro h
    have := congrArg Vec3.y h
    norm_num at this

/-- C4 (amended): per-tick integrator table.  Particles and the wreckage
smoke trail update position first with the pre-tick velocity and then adjust
the velocity — fire: decay 0.96 and y += 2·delta; spark: decay 0.98 and
y −= 15·delta; smoke particle: decay 0.92 and y += 1·delta; smoke trail:
decay 0.95 and y += 0.8·delta — but the wreckage body applies gravity
(y −= 15·delta, no decay) to its velocity *first* and then advances its
position with the already-updated velocity. -/
theorem C4_integrator_table (p v : Vec3) (d : ℚ) (ws : WreckageState)
    (g now : ℚ) (rng : ℕ → ℚ) (k : ℕ) (h : ws.hasLanded = false) :
    particleTick .fire ⟨p, v⟩ d =
      ⟨⟨p.x + d * v.x, p.y + d * v.y, p.z + d * v.z⟩,
       ⟨96/100 * v.x, 96/100 * v.y + d * 2, 96/100 * v.z⟩⟩ ∧
    particleTick .spark ⟨p, v⟩ d =
      ⟨⟨p.x + d * v.x, p.y + d * v.y, p.z + d * v.z⟩,
       ⟨98/100 * v.x, 98/100 * v.y - d * 15, 98/100 * v.z⟩⟩ ∧
    particleTick .smoke ⟨p, v⟩ d =
      ⟨⟨p.x + d * v.x, p.y + d * v.y, p.z + d * v.z⟩,
       ⟨92/100 * v.x, 92/100 * v.y + d * 1, 92/100 * v.z⟩⟩ ∧
    smokeTrailTick ⟨p, v⟩ d =
      ⟨⟨p.x + d * v.x, p.y + d * v.y, p.z + d * v.z⟩,
       ⟨95/100 * v.x, 95/100 * v.y + d * (8/10), 95/100 * v.z⟩⟩ ∧
    (wreckageTick g ws d now rng k).1.velocity =
      ⟨ws.velocity.x, ws.velocity.y - 15 * d, ws.velocity.z⟩ ∧
    (wreckageTick g ws d now rng k).1.position =
      ws.position.add (Vec3.smul d ⟨ws.velocity.x, ws.velocity.y - 15 * d, ws.velocity.z⟩) := by
  obtain ⟨pos, vel, rot, rs, lst, sp, hl, gh, lhp⟩ := ws
  simp only at h
  subst h
  refine ⟨?_, ?_, ?_, ?_, ?_, ?_⟩
  · simp only [particleTick, particleVelocityUpdate, Vec3.add, Vec3.smul,
      ParticleState.mk.injEq, Vec3.mk.injEq]
  · simp only [particleTick, particleVelocityUpdate, Vec3.add, Vec3.smul,
      ParticleState.mk.injEq, Vec3.mk.injEq]
  · simp only [particleTick, particleVelocityUpdate, Vec3.add, Vec3.smul,
      ParticleState.mk.injEq, Vec3.mk.injEq]
  · simp only [smokeTrailTick, Vec3.add, Vec3.smul,
      ParticleState.mk.injEq, Vec3.mk.injEq]
  · simp only [wreckageTick, Bool.false_eq_true, if_false]
    split <;> rfl
  · simp only [wreckageTick, Bool.false_eq_true, if_false]
    split <;> rfl

/-- Witness for `C4_integrator_table`: an unlanded wreckage body with
velocity (0, 0, −5) ticked for half a second has velocity (0, −7.5, −5) —
gravity hit the velocity before the position update. -/
theorem C4_integrator_table_witness :
    (wreckageTick (-100) (WreckageState.init ⟨0, 0, -5⟩ ⟨2, 2, 2⟩) (1/2) 1000
        (fun _ => 1/2) 0).1.velocity = ⟨0, -15/2, -5⟩ ∧
    (wreckageTick (-100) (WreckageState.init ⟨0, 0, -5⟩ ⟨2, 2, 2⟩) (1/2) 1000
        (fun _ => 1/2) 0).1.position = ⟨0, -15/4, -5/2⟩ := by
  have h := C4_integrator_table ⟨1, 2, 3⟩ ⟨4, 5, 6⟩ (1/2)
    (WreckageState.init ⟨0, 0, -5⟩ ⟨2, 2, 2⟩) (-100) 1000 (fun _ => 1/2) 0 rfl
  constructor
  · rw [h.2.2.2.2.1]
    show (⟨0, 0 - 15 * (1/2), -5⟩ : Vec3) = _
    norm_num
  · rw [h.2.2.2.2.2]
    show Vec3.add ⟨0, 0, 0⟩ (Vec3.smul (1/2) ⟨0, 0 - 15 * (1/2), -5⟩) = _
    norm_num [Vec3.add, Vec3.smul]

/-- Every id returned by a run of Manager operations is at least the starting
counter value, and the returned ids are strictly increasing in call order. -/
theorem runOps_ids_increasing (ops : List ManagerOp) :
    ∀ m : ManagerState,
      (∀ i ∈ (runOps m ops).2, m.nextId ≤ i) ∧
      List.Pairwise (· < ·) (runOps m ops).2 ∧
      (runOps m ops).2.length = ops.countP ManagerOp.isTrigger := by
  induction ops with
  | nil =>
      intro m
      refine ⟨by simp [runOps], by simp [runOps], by simp [runOps]⟩
  | cons op ops ih =>
      intro m
      cases op with
      | trigger cfg =>
          have hred : runOps m (ManagerOp.trigger cfg :: ops) =
              ((runOps (triggerExplosion cfg m).2 ops).1,
               m.nextId :: (runOps (triggerExplosion cfg m).2 ops).2) := rfl
          have hnext : (triggerExplosion cfg m).2.nextId = m.nextId + 1 := rfl
          obtain ⟨hlo, hpw, hlen⟩ := ih (triggerExplosion cfg m).2
          rw [hnext] at hlo
          refine ⟨?_, ?_, ?_⟩
          · intro i hi
            rw [hred] at hi
            rcases List.mem_cons.mp hi with h | h
            · omega
            · have := hlo i h
              omega
          · rw [hred]
            exact List.pairwise_cons.mpr ⟨fun i hi => by have := hlo i hi; omega, hpw⟩
          · rw [hred]
            simp only [List.length_cons, hlen]
            rw [List.countP_cons_of_pos]
            rfl
      | remove j =>
          have hred : runOps m (ManagerOp.remove j :: ops) =
              runOps (removeExplosion j m) ops := rfl
          have hnext : (removeExplosion j m).nextId = m.nextId := rfl
          obtain ⟨hlo, hpw, hlen⟩ := ih (removeExplosion j m)
          rw [hnext] at hlo
          refine ⟨?_, ?_, ?_⟩
          · intro i hi
            exact hlo i (by rw [hred] at hi; exact hi)
          · rw [hred]; exact hpw
          · rw [hred, hlen, List.countP_cons_of_neg]
            simp [ManagerOp.isTrigger]
      | clearAll =>
          have hred : runOps m (ManagerOp.clearAll :: ops) =
              runOps (clearAllExplosions m) ops := rfl
          have hnext : (clearAllExplosions m).nextId = m.nextId := rfl
          obtain ⟨hlo, hpw, hlen⟩ := ih (clearAllExplosions m)
          rw [hnext] at hlo
          refine ⟨?_, ?_, ?_⟩
          · intro i hi
            exact hlo i (by rw [hred] at hi; exact hi)
          · rw [hred]; exact hpw
          · rw [hred, hlen, List.countP_cons_of_neg]
            simp [ManagerOp.isTrigger]

/-- C8: over every sequence of Manager operations the ids returned by
`triggerExplosion` are strictly increasing in call order — each returned id
is strictly greater than every previously returned one — so no id is ever
reused, even after `removeExplosion` or `clearAllExplosions` (neither touches
the counter); N trigger calls with arbitrary removals interleaved yield N
distinct ids. -/
theorem C8_trigger_ids_fresh_and_monotone (m : ManagerState) (ops : List ManagerOp) :
    List.Pairwise (· < ·) (runOps m ops).2 ∧
    (runOps m ops).2.Nodup ∧
    (runOps m ops).2.length = ops.countP ManagerOp.isTrigger := by
  obtain ⟨-, hpw, hlen⟩ := runOps_ids_increasing ops m
  exact ⟨hpw, hpw.imp ne_of_lt, hlen⟩

/-- C9: while the camera shake is active with progress < 1, a tick writes
`base + randomSpread(intensity·(1−progress))` into the camera's x and y, a
perturbation of magnitude at most `intensity·(1−progress)`, and never touches
z (and the shake stays active); at the first tick with progress ≥ 1 the
camera position is restored to exactly the captured base position and the
shake deactivates (`startTime` is cleared). -/
theorem C9_camera_shake_xy_only_and_restore (intensity duration : ℚ)
    (camPos base : Vec3) (t0 now1 now2 r1 r2 : ℚ)
    (hr1 : 0 ≤ r1) (hr1' : r1 ≤ 1) (hr2 : 0 ≤ r2) (hr2' : r2 ≤ 1)
    (hi : 0 ≤ intensity)
    (hp1 : (now1 - t0) / duration < 1) (hq : 1 ≤ (now2 - t0) / duration) :
    ((cameraShakeTick intensity duration ⟨camPos, some base, some t0⟩ now1 r1 r2).cameraPos.z
        = camPos.z) ∧
    ((cameraShakeTick intensity duration ⟨camPos, some base, some t0⟩ now1 r1 r2).cameraPos.x
        = base.x + randomSpread (intensity * (1 - (now1 - t0) / duration)) r1) ∧
    ((cameraShakeTick intensity duration ⟨camPos, some base, some t0⟩ now1 r1 r2).cameraPos.y
        = base.y + randomSpread (intensity * (1 - (now1 - t0) / duration)) r2) ∧
    (|(cameraShakeTick intensity duration ⟨camPos, some base, some t0⟩ now1 r1 r2).cameraPos.x
        - base.x| ≤ intensity * (1 - (now1 - t0) / duration)) ∧
    (|(cameraShakeTick intensity duration ⟨camPos, some base, some t0⟩ now1 r1 r2).cameraPos.y
        - base.y| ≤ intensity * (1 - (now1 - t0) / duration)) ∧
    ((cameraShakeTick intensity duration ⟨camPos, some base, some t0⟩ now1 r1 r2).startTime
        = some t0) ∧
    ((cameraShakeTick intensity duration ⟨camPos, some base, some t0⟩ now2 r1 r2).cameraPos
        = base) ∧
    ((cameraShakeTick intensity duration ⟨camPos, some base, some t0⟩ now2 r1 r2).startTime
        = none) := by
  have hshake : 0 ≤ intensity * (1 - (now1 - t0) / duration) :=
    mul_nonneg hi (by linarith)
  have hact : cameraShakeTick intensity duration ⟨camPos, some base, some t0⟩ now1 r1 r2 =
      { cameraPos := ⟨base.x + randomSpread (intensity * (1 - (now1 - t0) / duration)) r1,
                     base.y + randomSpread (intensity * (1 - (now1 - t0) / duration)) r2,
                     camPos.z⟩,
        base := some base, startTime := some t0 } := by
    unfold cameraShakeTick
    dsimp only
    rw [if_neg (not_le.mpr hp1)]
  have hdone : cameraShakeTick intensity duration ⟨camPos, some base, some t0⟩ now2 r1 r2 =
      { cameraPos := base, base := some base, startTime := none } := by
    unfold cameraShakeTick
    dsimp only
    rw [if_pos hq]
  refine ⟨by rw [hact], by rw [hact], by rw [hact], ?_, ?_, by rw [hact], by rw [hdone],
    by rw [hdone]⟩
  · rw [hact]
    show |base.x + randomSpread _ r1 - base.x| ≤ _
    rw [add_sub_cancel_left]
    exact abs_randomSpread_le _ r1 hshake hr1 hr1'
  · rw [hact]
    show |base.y + randomSpread _ r2 - base.y| ≤ _
    rw [add_sub_cancel_left]
    exact abs_randomSpread_le _ r2 hshake hr2 hr2'

/-- Witness for `C9_camera_shake_xy_only_and_restore`: intensity 2, duration
100 ms, base (1, 2, 3), camera at (9, 9, 9), shake started at t = 0,
perturbing tick at 50 ms (progress 1/2) with draws 1 and 0, restoring tick at
200 ms (progress 2). -/
theorem C9_camera_shake_xy_only_and_restore_witness :
    ((cameraShakeTick 2 100 ⟨⟨9, 9, 9⟩, some ⟨1, 2, 3⟩, some 0⟩ 50 1 0).cameraPos.z = 9) ∧
    ((cameraShakeTick 2 100 ⟨⟨9, 9, 9⟩, some ⟨1, 2, 3⟩, some 0⟩ 50 1 0).cameraPos.x
        = 1 + randomSpread (2 * (1 - (50 - 0) / 100)) 1) ∧
    ((cameraShakeTick 2 100 ⟨⟨9, 9, 9⟩, some ⟨1, 2, 3⟩, some 0⟩ 200 1 0).cameraPos
        = ⟨1, 2, 3⟩) ∧
    ((cameraShakeTick 2 100 ⟨⟨9, 9, 9⟩, some ⟨1, 2, 3⟩, some 0⟩ 200 1 0).startTime = none) := by
  have h := C9_camera_shake_xy_only_and_restore 2 100 ⟨9, 9, 9⟩ ⟨1, 2, 3⟩ 0 50 200 1 0
    (by norm_num) (by norm_num) (by norm_num) (by norm_num) (by norm_num)
    (by norm_num) (by norm_num)
  exact ⟨h.1, h.2.1, h.2.2.2.2.2.2.1, h.2.2.2.2.2.2.2⟩

/-- A wreckage run preserves the invariant that the number of `onGroundHit`
calls is 1 when landed and 0 when not. -/
theorem wreckageRun_hits_invariant (g : ℚ) (rng : ℕ → ℚ) (frames : List (ℚ × ℚ)) :
    ∀ (s : WreckageState) (k : ℕ),
      s.groundHits = (if s.hasLanded then 1 else 0) →
      (wreckageRun g rng s k frames).1.groundHits
        = if (wreckageRun g rng s k frames).1.hasLanded then 1 else 0 := by
  induction frames with
  | nil => intro s k h; exact h
  | cons f fs ih =>
      intro s k h
      have hred : wreckageRun g rng s k (f :: fs) =
          wreckageRun g rng (wreckageTick g s f.1 f.2 rng k).1
            (wreckageTick g s f.1 f.2 rng k).2 fs := rfl
      rw [hred]
      apply ih
      unfold wreckageTick
      by_cases hl : s.hasLanded
      · rw [if_pos hl]
        exact h
      · rw [if_neg hl]
        rw [if_neg hl] at h
        dsimp only
        split
        · simp [h]
        · simp [h, hl]

/-- C2 (counterexample): the ground test is in the explosion-local frame, not
world space.  Take an owning Explosion Instance at world position (0, 10, 0)
and `groundY = −5`: a wreckage body with initial (cone-central) velocity
(0, 0, −5) — forward draw 0.5, speed draw 0.4 — ticked twice with
delta = 0.5 s lands with local y = −11.25, i.e. world-space
y = 10 − 11.25 = −1.25, which is strictly above the claimed world-space
ground plane −5; yet `hasLanded` is already true and the callback has fired,
refuting the claim for instances away from the origin. -/
theorem C2_counterexample :
    ((wreckageRun (-5) (fun _ => 1/2) (WreckageState.init ⟨0, 0, -5⟩ ⟨2, 2, 2⟩) 0
        [(1/2, 1000), (1/2, 1500)]).1.hasLanded = true) ∧
    ((wreckageRun (-5) (fun _ => 1/2) (WreckageState.init ⟨0, 0, -5⟩ ⟨2, 2, 2⟩) 0
        [(1/2, 1000), (1/2, 1500)]).1.groundHits = 1) ∧
    ((10 : ℚ) + (wreckageRun (-5) (fun _ => 1/2) (WreckageState.init ⟨0, 0, -5⟩ ⟨2, 2, 2⟩) 0
        [(1/2, 1000), (1/2, 1500)]).1.position.y = -5/4) ∧
    ¬ ((10 : ℚ) + (wreckageRun (-5) (fun _ => 1/2) (WreckageState.init ⟨0, 0, -5⟩ ⟨2, 2, 2⟩) 0
        [(1/2, 1000), (1/2, 1500)]).1.position.y ≤ -5) := by
  have t1 : wreckageTick (-5) (WreckageState.init ⟨0, 0, -5⟩ ⟨2, 2, 2⟩) (1/2) 1000
      (fun _ => 1/2) 0 =
      (⟨⟨0, -15/4, -5/2⟩, ⟨0, -15/2, -5⟩, ⟨1, 1, 1⟩, ⟨2, 2, 2⟩, 1000,
        [⟨2001/2, ⟨0, -15/4, -5/2⟩, ⟨0, 1, 0⟩, 9/20⟩], false, 0, none⟩, 5) := by
    unfold wreckageTick WreckageState.init
    rw [if_neg (by simp)]
    dsimp only
    rw [if_neg (by norm_num [Vec3.add, Vec3.smul])]
    norm_num [Vec3.add, Vec3.smul, randomSpread, randomRange]
  have t2 : wreckageTick (-5)
      (⟨⟨0, -15/4, -5/2⟩, ⟨0, -15/2, -5⟩, ⟨1, 1, 1⟩, ⟨2, 2, 2⟩, 1000,
        [⟨2001/2, ⟨0, -15/4, -5/2⟩, ⟨0, 1, 0⟩, 9/20⟩], false, 0, none⟩ : WreckageState)
      (1/2) 1500 (fun _ => 1/2) 5 =
      (⟨⟨0, -45/4, -5⟩, ⟨0, -15, -5⟩, ⟨2, 2, 2⟩, ⟨2, 2, 2⟩, 1500,
        [⟨2001/2, ⟨0, -15/4, -5/2⟩, ⟨0, 1, 0⟩, 9/20⟩,
         ⟨3001/2, ⟨0, -45/4, -5⟩, ⟨0, 1, 0⟩, 9/20⟩],
        true, 1, some ⟨0, -45/4, -5⟩⟩, 10) := by
    unfold wreckageTick
    rw [if_neg (by simp)]
    dsimp only
    rw [if_pos (by norm_num [Vec3.add, Vec3.smul])]
    norm_num [Vec3.add, Vec3.smul, randomSpread, randomRange]
  have hrun : (wreckageRun (-5) (fun _ => 1/2) (WreckageState.init ⟨0, 0, -5⟩ ⟨2, 2, 2⟩) 0
      [(1/2, 1000), (1/2, 1500)]).1 =
      ⟨⟨0, -45/4, -5⟩, ⟨0, -15, -5⟩, ⟨2, 2, 2⟩, ⟨2, 2, 2⟩, 1500,
        [⟨2001/2, ⟨0, -15/4, -5/2⟩, ⟨0, 1, 0⟩, 9/20⟩,
         ⟨3001/2, ⟨0, -45/4, -5⟩, ⟨0, 1, 0⟩, 9/20⟩],
        true, 1, some ⟨0, -45/4, -5⟩⟩ := by
    show (wreckageRun (-5) (fun _ => 1/2)
        (wreckageTick (-5) (WreckageState.init ⟨0, 0, -5⟩ ⟨2, 2, 2⟩) (1/2) 1000
          (fun _ => 1/2) 0).1
        (wreckageTick (-5) (WreckageState.init ⟨0, 0, -5⟩ ⟨2, 2, 2⟩) (1/2) 1000
          (fun _ => 1/2) 0).2 [(1/2, 1500)]).1 = _
    rw [t1]
    show (wreckageTick (-5) _ (1/2) 1500 (fun _ => 1/2) 5).1 = _
    rw [t2]
  rw [hrun]
  norm_num

/-- C2 (amended): the wreckage collision test runs in the owning Explosion
Instance's local frame.  For a body with ground parameter `groundY = G` and
current local height above `G`, a tick sets `landed` exactly when the newly
integrated *local* y-position (world y minus the instance's world y, since
the body starts at local (0,0,0) inside the instance's group) is ≤ G — so in
world space the body lands when world y ≤ instanceY + G, which agrees with
the claim only for instances at world height 0; the ground-hit callback then
fires exactly once, receiving the local landing position, and a landed body
never integrates again. -/
theorem C2_landing_in_local_frame (g d now : ℚ) (rng : ℕ → ℚ) (k : ℕ)
    (s : WreckageState) (h : s.hasLanded = false) (P : Vec3) (v₀ rs : Vec3)
    (k₀ : ℕ) (frames : List (ℚ × ℚ)) :
    ((wreckageTick g s d now rng k).1.hasLanded
        = decide (s.position.y + d * (s.velocity.y - 15 * d) ≤ g)) ∧
    ((wreckageTick g s d now rng k).1.hasLanded
        = decide (P.y + (s.position.y + d * (s.velocity.y - 15 * d)) ≤ P.y + g)) ∧
    ((wreckageTick g s d now rng k).1.position.y
        = s.position.y + d * (s.velocity.y - 15 * d)) ∧
    ((wreckageTick g s d now rng k).1.groundHits =
        if s.position.y + d * (s.velocity.y - 15 * d) ≤ g
        then s.groundHits + 1 else s.groundHits) ∧
    ((wreckageTick g s d now rng k).1.lastHitPosition =
        if s.position.y + d * (s.velocity.y - 15 * d) ≤ g
        then some ((wreckageTick g s d now rng k).1.position) else s.lastHitPosition) ∧
    (wreckageTick g { s with hasLanded := true } d now rng k
        = ({ s with hasLanded := true }, k)) ∧
    ((wreckageRun g rng (WreckageState.init v₀ rs) k₀ frames).1.groundHits
        = if (wreckageRun g rng (WreckageState.init v₀ rs) k₀ frames).1.hasLanded
          then 1 else 0) := by
  have hyeq : ((s.position.add (Vec3.smul d { s.velocity with y := s.velocity.y - 15 * d })).y)
      = s.position.y + d * (s.velocity.y - 15 * d) := rfl
  refine ⟨?_, ?_, ?_, ?_, ?_, ?_, ?_⟩
  · unfold wreckageTick
    rw [if_neg (by simp [h])]
    dsimp only
    split
    · rename_i hc
      rw [hyeq] at hc
      simp [hc]
    · rename_i hc
      rw [hyeq] at hc
      simp [h, hc]
  · unfold wreckageTick
    rw [if_neg (by simp [h])]
    dsimp only
    have hiff : (s.position.y + d * (s.velocity.y - 15 * d) ≤ g)
        ↔ (P.y + (s.position.y + d * (s.velocity.y - 15 * d)) ≤ P.y + g) := by
      constructor <;> intro hh <;> linarith
    split
    · rename_i hc
      rw [hyeq] at hc
      simp [hiff.mp hc]
    · rename_i hc
      rw [hyeq] at hc
      simp only [not_le] at hc
      simp only [h]
      symm
      simp only [decide_eq_false_iff_not, not_le]
      linarith
  · unfold wreckageTick
    rw [if_neg (by simp [h])]
    dsimp only
    split <;> exact hyeq
  · unfold wreckageTick
    rw [if_neg (by simp [h])]
    dsimp only
    split
    · rename_i hc
      rw [hyeq] at hc
      rw [if_pos hc]
    · rename_i hc
      rw [hyeq] at hc
      rw [if_neg hc]
  · unfold wreckageTick
    rw [if_neg (by simp [h])]
    dsimp only
    split
    · rename_i hc
      rw [hyeq] at hc
      rw [if_pos hc]
    · rename_i hc
      rw [hyeq] at hc
      rw [if_neg hc]
  · unfold wreckageTick
    rw [if_pos rfl]
  · exact wreckageRun_hits_invariant g rng frames (WreckageState.init v₀ rs) k₀ rfl

/-- Witness for `C2_landing_in_local_frame`: the un-landed initial body with
velocity (0, 0, −5) at instance world position (0, 10, 0), one half-second
tick (which does not land), and the two-tick run of the counterexample
(which lands once). -/
theorem C2_landing_in_local_frame_witness :
    ((wreckageTick (-5) (WreckageState.init ⟨0, 0, -5⟩ ⟨2, 2, 2⟩) (1/2) 1000
        (fun _ => 1/2) 0).1.hasLanded
      = decide ((0 : ℚ) + (1/2) * (0 - 15 * (1/2)) ≤ -5)) ∧
    ((wreckageRun (-5) (fun _ => 1/2) (WreckageState.init ⟨0, 0, -5⟩ ⟨2, 2, 2⟩) 0
        [(1/2, 1000), (1/2, 1500)]).1.groundHits
      = if (wreckageRun (-5) (fun _ => 1/2) (WreckageState.init ⟨0, 0, -5⟩ ⟨2, 2, 2⟩) 0
            [(1/2, 1000), (1/2, 1500)]).1.hasLanded then 1 else 0) := by
  have h := C2_landing_in_local_frame (-5) (1/2) 1000 (fun _ => 1/2) 0
    (WreckageState.init ⟨0, 0, -5⟩ ⟨2, 2, 2⟩) rfl ⟨0, 10, 0⟩ ⟨0, 0, -5⟩ ⟨2, 2, 2⟩ 0
    [(1/2, 1000), (1/2, 1500)]
  exact ⟨h.1, h.2.2.2.2.2.2⟩

end ExplosionEngine
